import Mathlib

/-!
Verification of the MQTT 3.1.1 subset broker (`src/cloud/mqtt_broker.py`)
against its natural-language specification.

The broker's pure logic is shallowly embedded here:
bytes are `Nat` (values < 256 where it matters), byte strings are `List Nat`,
a socket's incoming data is a list of chunks (`List (List Nat)`), where one
chunk is what a single `recv` call can return, and topics/filters are
`String`.  Connections (Python socket objects used as dict keys) are `Nat`
identifiers; Python `dict`/`set` state is embedded as association lists with
set-insertion; exceptions raised while handling a packet (struct.error,
IndexError, UnicodeDecodeError) are `Option`: `none` means the exception
propagates to `handle_client`, which closes and cleans up the connection.
-/

/-! ## Topic Matcher (`MQTTBroker.topic_matches`) -/

/-- Embedding of Python `str.split(sep)` for a single-character separator,
working on the string's character list. `"".split('/') == ['']`,
`"a/".split('/') == ['a','']`, matching CPython semantics. -/
def splitOnChar (sep : Char) : List Char → List (List Char)
  | [] => [[]]
  | c :: rest =>
    let r := splitOnChar sep rest
    if c = sep then [] :: r
    else
      match r with
      | [] => [[c]]
      | g :: gs => (c :: g) :: gs

/-- Python `s.split(sep)` producing Lean strings. -/
def pysplit (s : String) (sep : Char) : List String :=
  (splitOnChar sep s.data).map String.mk

/-- The segment loop of `topic_matches` (source lines 263-271).  The Python
code walks `pattern_parts` by index `i`, reading `topic_parts[i]`; here the
same walk is written as lockstep structural recursion, and the trailing
`return len(topic_parts) == len(pattern_parts)` becomes `ts.isEmpty` (the
two lists were consumed in lockstep, so the lengths are equal exactly when
the leftover topic suffix is empty). -/
def matchLoop (ps ts : List String) : Bool :=
  match ps with
  | [] => ts.isEmpty
  | p :: ps' =>
    if p = "#" then true
    else
      match ts with
      | [] => false
      | t :: ts' => if p ≠ "+" ∧ p ≠ t then false else matchLoop ps' ts'

/-- Embedding of `MQTTBroker.topic_matches(topic, pattern)`
(source lines 251-271): the `pattern == '#'` early accept, the early reject
when the filter is longer than the topic and contains no `'#'`, then the
per-segment loop. -/
def topic_matches (topic pattern : String) : Bool :=
  if pattern = "#" then true
  else
    let topic_parts := pysplit topic '/'
    let pattern_parts := pysplit pattern '/'
    if pattern_parts.length > topic_parts.length ∧ ¬ pattern_parts.contains "#" then false
    else matchLoop pattern_parts topic_parts

/-- The reference matching rules, written from the spec's words (section 4.3):
at filter segment i, a `"#"` matches immediately; a `"+"` matches any single
topic segment present at index i and fails when the topic has no segment
there; a literal must equal the topic segment; when all filter segments are
consumed without a `"#"`, the match succeeds only when the topic has exactly
as many segments as the filter (both lists consumed in lockstep, so the
remaining topic must be empty). -/
def refMatch (ts ps : List String) : Bool :=
  match ps with
  | [] => ts.isEmpty
  | p :: ps' =>
    if p = "#" then true
    else
      match ts with
      | [] => false
      | t :: ts' => if p = "+" ∨ p = t then refMatch ts' ps' else false

/-! ## Length Codec (`MQTTBroker.encode_remaining_length`,
`MQTTBroker.decode_remaining_length`) and the socket stream model -/

/-- Embedding of `MQTTBroker.encode_remaining_length` (source lines 311-325):
base-128 continuation-bit encoding, low 7 bits first, high bit set while more
bytes follow.  The Python do-while loop becomes recursion on `length / 128`. -/
def encode_remaining_length (length : Nat) : List Nat :=
  let byte := length % 128
  let length' := length / 128
  if length' > 0 then (byte ||| 0x80) :: encode_remaining_length length'
  else [byte]
decreasing_by exact Nat.div_lt_self (by omega) (by omega)

/-- Total byte count still readable from a stream of chunks. -/
def streamLen (s : List (List Nat)) : Nat := (s.map List.length).sum

/-- One `sock.recv(1)` call: returns the next byte when data is available,
`none` at EOF.  Bytes left over from a partially consumed chunk stay buffered
at the front of the stream; an exhausted stream (or an explicit empty chunk)
is EOF. -/
def recv1 : List (List Nat) → Option (Nat × List (List Nat))
  | [] => none
  | [] :: _ => none
  | (b :: bs) :: rest => some (b, if bs.isEmpty then rest else bs :: rest)

/-- One `sock.recv(n)` call with `n > 0`: returns up to `n` bytes of the next
chunk — possibly fewer than `n` (a short read), and `[]` at EOF. -/
def recvN (n : Nat) : List (List Nat) → (List Nat × List (List Nat))
  | [] => ([], [])
  | c :: rest => (c.take n, if (c.drop n).isEmpty then rest else (c.drop n) :: rest)

/-- The loop of `MQTTBroker.decode_remaining_length` (source lines 296-309):
reads one byte per iteration via `sock.recv(1)[0]`, accumulates
`value += (byte & 0x7F) * multiplier`, multiplies `multiplier` by 128, stops
when the high bit is clear.  `recv(1)[0]` at EOF raises `IndexError`, hence
`none`. -/
def decodeRLAux (s : List (List Nat)) (multiplier value : Nat) : Option (Nat × List (List Nat)) :=
  match h : recv1 s with
  | none => none
  | some (b, s') =>
    let value' := value + (b &&& 0x7F) * multiplier
    if b &&& 0x80 = 0 then some (value', s')
    else decodeRLAux s' (multiplier * 128) value'
termination_by streamLen s
decreasing_by
  rcases s with _ | ⟨c, rest⟩
  · simp [recv1] at h
  · rcases c with _ | ⟨b0, bs⟩
    · simp [recv1] at h
    · simp only [recv1, Option.some.injEq, Prod.mk.injEq] at h
      obtain ⟨h1, h2⟩ := h
      subst h2
      by_cases hbs : bs.isEmpty
      · simp only [hbs, if_true, streamLen, List.map_cons, List.sum_cons]
        simp only [List.isEmpty_iff] at hbs
        subst hbs
        simp
      · simp [hbs, streamLen]

/-- Embedding of `MQTTBroker.decode_remaining_length(sock)`: the loop started
with `multiplier = 1`, `value = 0`. -/
def decode_remaining_length (s : List (List Nat)) : Option (Nat × List (List Nat)) :=
  decodeRLAux s 1 0

/-- Prepend leftover bytes onto a stream as a chunk (no chunk if none left). -/
def chunkCons : List Nat → List (List Nat) → List (List Nat)
  | [], s => s
  | bs, s => bs :: s

/-! ## UTF-8 codec

The broker converts between byte strings and Python `str` via
`bytes.decode('utf-8')` and `str.encode('utf-8')`.  Both directions are
embedded here; a `UnicodeDecodeError` (invalid sequence, overlong form,
surrogate, or value beyond U+10FFFF) is `none` and propagates as an
exception. -/

/-- UTF-8 bytes of one code point (Python `chr(n).encode('utf-8')` for a
valid scalar value `n`). -/
def utf8EncodeChar (n : Nat) : List Nat :=
  if n < 0x80 then [n]
  else if n < 0x800 then [0xC0 + n / 64, 0x80 + n % 64]
  else if n < 0x10000 then [0xE0 + n / 4096, 0x80 + (n / 64) % 64, 0x80 + n % 64]
  else [0xF0 + n / 262144, 0x80 + (n / 4096) % 64, 0x80 + (n / 64) % 64, 0x80 + n % 64]

/-- Python `s.encode('utf-8')` as a byte list. -/
def stringBytes (s : String) : List Nat :=
  s.data.flatMap (fun c => utf8EncodeChar c.toNat)

/-- Strict UTF-8 decoding of a byte list into characters
(Python `bytes.decode('utf-8')`); `none` on any invalid input. -/
def utf8DecodeList : List Nat → Option (List Char)
  | [] => some []
  | b :: rest =>
    if b < 0x80 then
      match utf8DecodeList rest with
      | none => none
      | some cs => some (Char.ofNat b :: cs)
    else if b < 0xC2 then none
    else if b < 0xE0 then
      match rest with
      | b1 :: rest1 =>
        if 0x80 ≤ b1 ∧ b1 < 0xC0 then
          match utf8DecodeList rest1 with
          | none => none
          | some cs => some (Char.ofNat ((b - 0xC0) * 64 + (b1 - 0x80)) :: cs)
        else none
      | [] => none
    else if b < 0xF0 then
      match rest with
      | b1 :: b2 :: rest2 =>
        if (0x80 ≤ b1 ∧ b1 < 0xC0) ∧ (0x80 ≤ b2 ∧ b2 < 0xC0) then
          let c := (b - 0xE0) * 4096 + (b1 - 0x80) * 64 + (b2 - 0x80)
          if c < 0x800 ∨ (0xD800 ≤ c ∧ c ≤ 0xDFFF) then none
          else
            match utf8DecodeList rest2 with
            | none => none
            | some cs => some (Char.ofNat c :: cs)
        else none
      | _ => none
    else if b < 0xF5 then
      match rest with
      | b1 :: b2 :: b3 :: rest3 =>
        if (0x80 ≤ b1 ∧ b1 < 0xC0) ∧ (0x80 ≤ b2 ∧ b2 < 0xC0) ∧ (0x80 ≤ b3 ∧ b3 < 0xC0) then
          let c := (b - 0xF0) * 262144 + (b1 - 0x80) * 4096 + (b2 - 0x80) * 64 + (b3 - 0x80)
          if c < 0x10000 ∨ 0x10FFFF < c then none
          else
            match utf8DecodeList rest3 with
            | none => none
            | some cs => some (Char.ofNat c :: cs)
        else none
      | _ => none
    else none

/-- Python `bytes.decode('utf-8')` producing a Lean `String`. -/
def utf8Decode (bs : List Nat) : Option String :=
  (utf8DecodeList bs).map String.mk

/-! ## Wire format helpers -/

/-- `struct.pack(">H", n)`: 2-byte big-endian (meaningful for n < 65536). -/
def u16be (n : Nat) : List Nat := [n / 256, n % 256]

/-- `struct.unpack(">H", data[pos:pos+2])[0]`: reads a 2-byte big-endian
integer; `struct.error` (hence `none`) when fewer than 2 bytes remain. -/
def parseU16 : List Nat → Option Nat
  | a :: b :: _ => some (a * 256 + b)
  | _ => none

/-- The PUBACK frame `struct.pack(">BBH", PUBACK, 2, msg_id)`
(source line 183). -/
def pubackBytes (msg_id : Nat) : List Nat := [0x40, 2, msg_id / 256, msg_id % 256]

/-- The SUBACK frame `struct.pack(">BBH", SUBACK, 2+len(rcs), msg_id) + rcs`
(source lines 215-216). -/
def subackBytes (msg_id : Nat) (rcs : List Nat) : List Nat :=
  [0x90, 2 + rcs.length, msg_id / 256, msg_id % 256] ++ rcs

/-- The forwarded PUBLISH frame built in `forward_publish` (source lines
233-242): the original flags byte, the re-encoded remaining length
(`len(packet) - 2 = 2 + len(topic_bytes) + len(payload)`), the 2-byte topic
length, the topic bytes, the payload.  No packet-identifier field exists. -/
def publishPacket (flags : Nat) (topic : String) (payload : List Nat) : List Nat :=
  let topic_bytes := stringBytes topic
  flags :: (encode_remaining_length (2 + topic_bytes.length + payload.length)
    ++ u16be topic_bytes.length ++ topic_bytes ++ payload)

/-! ## Subscription Registry and forwarding (`MQTTBroker.forward_publish`) -/

/-- The subscriber set computed in `forward_publish` (source lines 222-231):
the exact-match entry's clients unioned with the clients of every filter that
`topic_matches` accepts.  The Python `set` union is a concatenation followed
by `dedup` (`self.subscriptions` is a dict, so its keys are distinct and the
exact-match lookup is the filter over entries equal to the topic). -/
def matching_subscribers (subs : List (String × List Nat)) (topic : String) : List Nat :=
  (((subs.filter (fun e => e.1 == topic)).flatMap (fun e => e.2)) ++
    ((subs.filter (fun e => topic_matches topic e.1)).flatMap (fun e => e.2))).dedup

/-- The send loop of `forward_publish` (source lines 245-249), parameterized
by which subscriber sockets raise on `send`: `subscriber.send(...)` sits in
`try/except pass`, so a raising socket simply yields no delivery and the loop
continues with the rest.  Returns the (connection, frame) pairs actually
delivered. -/
def forward_publish_f (fail : Nat → Bool) (subs : List (String × List Nat))
    (topic : String) (payload : List Nat) (flags : Nat) : List (Nat × List Nat) :=
  ((matching_subscribers subs topic).filter (fun c => !(fail c))).map
    (fun c => (c, publishPacket flags topic payload))

/-- `MQTTBroker.forward_publish` when every subscriber socket accepts the
write. -/
def forward_publish (subs : List (String × List Nat)) (topic : String)
    (payload : List Nat) (flags : Nat) : List (Nat × List Nat) :=
  forward_publish_f (fun _ => false) subs topic payload flags

/-- Lock events of one `forward_publish` call.  In the source (lines
219-249) the entire body — computing the matching set, building the frame,
and the send loop — sits inside `with self.lock:`, so the trace is
acquire, sends, release. -/
inductive LockEv where
  | acquire : LockEv
  | send : Nat → List Nat → LockEv
  | release : LockEv
deriving DecidableEq

/-- The lock/send trace of `forward_publish(topic, payload, flags)`. -/
def forward_publish_events (subs : List (String × List Nat)) (topic : String)
    (payload : List Nat) (flags : Nat) : List LockEv :=
  LockEv.acquire ::
    ((forward_publish subs topic payload flags).map (fun p => LockEv.send p.1 p.2)
      ++ [LockEv.release])

/-- Checks that every send event in a trace happens while the lock is NOT
held (the boolean argument tracks whether the lock is currently held). -/
def sendsOutsideLock : List LockEv → Bool → Bool
  | [], _ => true
  | LockEv.acquire :: r, _ => sendsOutsideLock r true
  | LockEv.release :: r, _ => sendsOutsideLock r false
  | LockEv.send _ _ :: r, held => !held && sendsOutsideLock r held

/-- Checks that every send event in a trace happens while the lock IS held. -/
def sendsDuringLock : List LockEv → Bool → Bool
  | [], _ => true
  | LockEv.acquire :: r, _ => sendsDuringLock r true
  | LockEv.release :: r, _ => sendsDuringLock r false
  | LockEv.send _ _ :: r, held => held && sendsDuringLock r held

/-! ## Packet handlers (`handle_publish`, `handle_connect`,
`handle_subscribe`) -/

/-- Embedding of `MQTTBroker.handle_publish(client_socket, flags, data)`
(source lines 155-184), parameterized by the failing-subscriber oracle of
`forward_publish_f`.  Parses the topic (2-byte length + UTF-8 bytes), the
2-byte packet identifier when QoS > 0, takes the rest as payload, forwards,
and answers PUBACK only under `qos == 1 and msg_id` — Python truthiness, so
also requiring `msg_id ≠ 0`.  Returns the (connection, frame) sends, the
PUBACK last; `none` models a parse exception. -/
def handle_publish_f (fail : Nat → Bool) (subs : List (String × List Nat))
    (conn : Nat) (flags : Nat) (data : List Nat) : Option (List (Nat × List Nat)) :=
  let qos := (flags &&& 0x06) >>> 1
  match parseU16 data with
  | none => none
  | some topic_len =>
    match utf8Decode ((data.drop 2).take topic_len) with
    | none => none
    | some topic =>
      if qos > 0 then
        match parseU16 (data.drop (2 + topic_len)) with
        | none => none
        | some msg_id =>
          let payload := data.drop (2 + topic_len + 2)
          let sends := forward_publish_f fail subs topic payload flags
          if qos = 1 ∧ msg_id ≠ 0 then some (sends ++ [(conn, pubackBytes msg_id)])
          else some sends
      else some (forward_publish_f fail subs topic (data.drop (2 + topic_len)) flags)

/-- `MQTTBroker.handle_publish` when every subscriber socket accepts the
write. -/
def handle_publish (subs : List (String × List Nat)) (conn : Nat) (flags : Nat)
    (data : List Nat) : Option (List (Nat × List Nat)) :=
  handle_publish_f (fun _ => false) subs conn flags data

/-- Embedding of `MQTTBroker.handle_connect(client_socket, data)` (source
lines 123-153): parses protocol name, level, connect flags, keep-alive and
client identifier, then answers CONNACK `[0x20, 2, 0, 0]` unconditionally.
Returns the client identifier and the CONNACK frame. -/
def handle_connect (data : List Nat) : Option (String × List Nat) :=
  match parseU16 data with
  | none => none
  | some proto_len =>
    match utf8Decode ((data.drop 2).take proto_len) with
    | none => none
    | some _protocol_name =>
      let pos := 2 + proto_len
      match (data.drop pos).head?, (data.drop (pos + 1)).head? with
      | some _protocol_level, some _connect_flags =>
        match parseU16 (data.drop (pos + 2)), parseU16 (data.drop (pos + 4)) with
        | some _keep_alive, some client_id_len =>
          match utf8Decode ((data.drop (pos + 6)).take client_id_len) with
          | none => none
          | some client_id => some (client_id, [0x20, 2, 0, 0])
        | _, _ => none
      | _, _ => none

/-- Python `set.add` on the defaultdict entry for `topic`
(`self.subscriptions[topic].add(client_socket)`, source line 207): inserts
`conn` into the filter's connection set, creating the entry if absent. -/
def add_subscription (subs : List (String × List Nat)) (topic : String) (conn : Nat) :
    List (String × List Nat) :=
  match subs with
  | [] => [(topic, [conn])]
  | (t, cs) :: rest =>
    if t == topic then (t, if cs.contains conn then cs else cs ++ [conn]) :: rest
    else (t, cs) :: add_subscription rest topic conn

/-- The filter-parsing loop of `handle_subscribe` (source lines 197-209):
repeatedly reads a 2-byte filter length, the filter bytes and a QoS byte
until the payload is exhausted.  A truncated field raises
(struct.error/IndexError), hence `none`. -/
def parse_filters (l : List Nat) : Option (List (String × Nat)) :=
  match l with
  | [] => some []
  | [_] => none
  | a :: b :: rest =>
    let topic_len := a * 256 + b
    match utf8Decode (rest.take topic_len) with
    | none => none
    | some topic =>
      match hq : rest.drop topic_len with
      | [] => none
      | q :: rest2 =>
        match parse_filters rest2 with
        | none => none
        | some more => some ((topic, q) :: more)
termination_by l.length
decreasing_by
  have hlen := congrArg List.length hq
  simp only [List.length_drop, List.length_cons] at hlen
  simp only [List.length_cons]
  omega

/-- Embedding of `MQTTBroker.handle_subscribe(client_socket, data)` (source
lines 186-217): parses the packet identifier and the filter list, adds the
connection under every filter, grants each requested QoS, and answers
SUBACK.  Returns the updated registry and the SUBACK frame. -/
def handle_subscribe (subs : List (String × List Nat)) (conn : Nat)
    (data : List Nat) : Option (List (String × List Nat) × List Nat) :=
  match parseU16 data with
  | none => none
  | some msg_id =>
    match parse_filters (data.drop 2) with
    | none => none
    | some filters =>
      let subs' := filters.foldl (fun s f => add_subscription s f.1 conn) subs
      let return_codes := filters.map (fun f => f.2)
      some (subs', subackBytes msg_id return_codes)

/-! ## Broker state, dispatch and cleanup -/

/-- The broker's shared mutable state: `self.clients` (connection table:
socket → client info) and `self.subscriptions` (filter → subscriber set). -/
structure BrokerState where
  clients : List (Nat × String)
  subscriptions : List (String × List Nat)
deriving DecidableEq

/-- Python dict assignment `self.clients[client_socket] = {...}`. -/
def setClient (clients : List (Nat × String)) (conn : Nat) (cid : String) :
    List (Nat × String) :=
  match clients with
  | [] => [(conn, cid)]
  | (k, v) :: rest =>
    if k == conn then (conn, cid) :: rest else (k, v) :: setClient rest conn cid

/-- MQTT control packet type codes (source lines 15-23). -/
def CONNECT : Nat := 0x10

def PUBLISH : Nat := 0x30

def SUBSCRIBE : Nat := 0x80

def PINGREQ : Nat := 0xC0

def DISCONNECT : Nat := 0xE0

/-- One iteration of the dispatch block in `MQTTBroker.handle_client`
(source lines 96-116) after a packet with fixed-header byte `first_byte` and
payload `data` has been read.  Returns the new state, the frames sent, and
whether the read loop continues (`false` exactly on DISCONNECT's `break`);
`none` models an exception inside a handler (the `except` path, fatal to the
connection).  A packet type matching none of the `elif` arms falls through:
nothing happens and the loop continues. -/
def dispatch_packet (st : BrokerState) (conn : Nat) (first_byte : Nat)
    (data : List Nat) : Option (BrokerState × List (Nat × List Nat) × Bool) :=
  let packet_type := first_byte &&& 0xF0
  if packet_type = CONNECT then
    match handle_connect data with
    | none => none
    | some (cid, connack) =>
      some ({ st with clients := setClient st.clients conn cid }, [(conn, connack)], true)
  else if packet_type = PUBLISH then
    match handle_publish st.subscriptions conn first_byte data with
    | none => none
    | some sends => some (st, sends, true)
  else if packet_type = SUBSCRIBE then
    match handle_subscribe st.subscriptions conn data with
    | none => none
    | some (subs', suback) =>
      some ({ st with subscriptions := subs' }, [(conn, suback)], true)
  else if packet_type = PINGREQ then
    some (st, [(conn, [0xD0, 0])], true)
  else if packet_type = DISCONNECT then
    some (st, [], false)
  else
    some (st, [], true)

/-- Embedding of `MQTTBroker.cleanup_client(client_socket)` (source lines
278-294): discards the connection from every filter's subscriber set and
deletes its connection-table entry. -/
def cleanup_client (st : BrokerState) (conn : Nat) : BrokerState :=
  { clients := st.clients.filter (fun e => !(e.1 == conn)),
    subscriptions := st.subscriptions.map (fun e => (e.1, e.2.filter (fun c => !(c == conn)))) }

/-! ## Packet Reader (the read phase of `MQTTBroker.handle_client`) -/

/-- Outcome of reading one packet from the stream. -/
inductive ReadOutcome where
  | eof : ReadOutcome
  | err : ReadOutcome
  | packet : Nat → List Nat → List (List Nat) → ReadOutcome
deriving DecidableEq

/-- The read phase of one `handle_client` loop iteration (source lines
79-93): `recv(1)` for the fixed header (`b''` ends the loop: `eof`), decode
the remaining length (an exception there is fatal: `err`), then — when the
length is positive — a single `recv(remaining_length)`, whose result (which
may be shorter than requested) becomes the packet data. -/
def read_packet (s : List (List Nat)) : ReadOutcome :=
  match recv1 s with
  | none => ReadOutcome.eof
  | some (first_byte, s1) =>
    match decode_remaining_length s1 with
    | none => ReadOutcome.err
    | some (remaining_length, s2) =>
      if remaining_length > 0 then
        let r := recvN remaining_length s2
        ReadOutcome.packet first_byte r.1 r.2
      else ReadOutcome.packet first_byte [] s2

/-! # Theorems -/

/-! ## C1 — Topic Matcher -/

theorem matchLoop_eq_refMatch (ps : List String) : ∀ ts, matchLoop ps ts = refMatch ts ps := by
  induction ps with
  | nil => intro ts; cases ts <;> simp [matchLoop, refMatch]
  | cons p ps' ih =>
    intro ts
    by_cases hp : p = "#"
    · cases ts <;> simp [matchLoop, refMatch, hp]
    · cases ts with
      | nil => simp [matchLoop, refMatch, hp]
      | cons t ts' =>
        by_cases hplus : p = "+"
        · simp [matchLoop, refMatch, hp, hplus, ih]
        · by_cases ht : p = t
          · simp [matchLoop, refMatch, hp, hplus, ht, ih]
          · simp [matchLoop, refMatch, hp, hplus, ht]

theorem refMatch_false_of_longer (ps : List String) :
    ∀ ts : List String, ts.length < ps.length → "#" ∉ ps → refMatch ts ps = false := by
  induction ps with
  | nil => intro ts h _; simp at h
  | cons p ps' ih =>
    intro ts hlen hmem
    have hp' : ¬ (p = "#") := fun h => hmem (h ▸ List.mem_cons_self p ps')
    cases ts with
    | nil => simp [refMatch, hp']
    | cons t ts' =>
      by_cases hc : p = "+" ∨ p = t
      · have : refMatch ts' ps' = false := by
          refine ih ts' ?_ ?_
          · simpa using Nat.lt_of_succ_lt_succ hlen
          · exact fun h => hmem (List.mem_cons_of_mem p h)
        simp [refMatch, hp', hc, this]
      · simp [refMatch, hp', hc]

/-- Claim C1: for every topic name and every filter (both split on `'/'`),
`topic_matches` returns exactly what the reference rules prescribe: `"#"` at
any filter position matches immediately, `"+"` matches any single topic
segment present at that index and fails when none is present, a literal
segment must equal the topic segment exactly, and when the filter is
exhausted without a `"#"` the match succeeds only when topic and filter have
the same number of segments. -/
theorem c1_topic_matcher_follows_reference_rules (topic pattern : String) :
    topic_matches topic pattern = refMatch (pysplit topic '/') (pysplit pattern '/') := by
  by_cases hp : pattern = "#"
  · subst hp
    have hsplit : pysplit "#" '/' = ["#"] := by decide
    rw [topic_matches, hsplit]
    cases pysplit topic '/' <;> simp [refMatch]
  · rw [topic_matches, if_neg hp]
    by_cases hcond :
        (pysplit pattern '/').length > (pysplit topic '/').length ∧
          ¬ (pysplit pattern '/').contains "#"
    · rw [if_pos hcond]
      have hmem : "#" ∉ pysplit pattern '/' := by
        intro h
        exact hcond.2 (List.elem_iff.mpr h)
      exact (refMatch_false_of_longer _ _ hcond.1 hmem).symm
    · rw [if_neg hcond]
      exact matchLoop_eq_refMatch _ _

/-! ## C2 — Length Codec -/

theorem recv1_chunkCons (b : Nat) (bs : List Nat) (s : List (List Nat)) :
    recv1 (chunkCons (b :: bs) s) = some (b, chunkCons bs s) := by
  cases bs <;> rfl

theorem chunkCons_of_ne_nil {l : List Nat} (h : l ≠ []) (s : List (List Nat)) :
    chunkCons l s = l :: s := by
  cases l with
  | nil => exact absurd rfl h
  | cons a t => rfl

theorem encode_remaining_length_ne_nil (n : Nat) : encode_remaining_length n ≠ [] := by
  rw [encode_remaining_length]
  by_cases h : n / 128 > 0 <;> simp [h]

theorem land127_of_lt (x : Nat) (h : x < 128) : x &&& 127 = x := by
  revert h
  revert x
  decide

theorem land128_of_lt (x : Nat) (h : x < 128) : x &&& 128 = 0 := by
  revert h
  revert x
  decide

theorem lor128_land127 (x : Nat) (h : x < 128) : (x ||| 128) &&& 127 = x := by
  revert h
  revert x
  decide

theorem lor128_land128 (x : Nat) (h : x < 128) : (x ||| 128) &&& 128 = 128 := by
  revert h
  revert x
  decide

theorem decodeRL_encodeRL (n : Nat) :
    ∀ multiplier value : Nat, ∀ s : List (List Nat),
      decodeRLAux (chunkCons (encode_remaining_length n) s) multiplier value
        = some (value + n * multiplier, s) := by
  induction n using encode_remaining_length.induct with
  | case1 n n' hpos ih =>
    intro multiplier value s
    have ih' : ∀ (m v : Nat) (s : List (List Nat)),
        decodeRLAux (chunkCons (encode_remaining_length (n / 128)) s) m v
          = some (v + n / 128 * m, s) := ih
    rw [encode_remaining_length, if_pos hpos]
    rw [decodeRLAux]
    rw [recv1_chunkCons]
    have hmod : n % 128 < 128 := Nat.mod_lt _ (by omega)
    have h80 : (n % 128 ||| 0x80) &&& 0x80 = 128 := lor128_land128 _ hmod
    have h7f : (n % 128 ||| 0x80) &&& 0x7F = n % 128 := lor128_land127 _ hmod
    simp only [h7f, h80]
    rw [if_neg (by omega)]
    rw [ih']
    congr 1
    congr 1
    have hn : n % 128 + 128 * (n / 128) = n := Nat.mod_add_div n 128
    calc value + n % 128 * multiplier + n / 128 * (multiplier * 128)
        = value + (n % 128 + 128 * (n / 128)) * multiplier := by ring
      _ = value + n * multiplier := by rw [hn]
  | case2 n n' hpos =>
    intro multiplier value s
    rw [encode_remaining_length, if_neg hpos]
    rw [decodeRLAux]
    rw [recv1_chunkCons]
    have hsmall : ¬ n / 128 > 0 := hpos
    have hlt : n % 128 < 128 := Nat.mod_lt _ (by omega)
    have hn : n % 128 = n := by omega
    rw [hn] at hlt ⊢
    have h80 : n &&& 0x80 = 0 := land128_of_lt _ (by omega)
    have h7f : n &&& 0x7F = n := land127_of_lt _ (by omega)
    simp only [h7f, h80]
    simp [chunkCons]

theorem encode_len_step (n : Nat) (h : 128 ≤ n) :
    (encode_remaining_length n).length = 1 + (encode_remaining_length (n / 128)).length := by
  rw [encode_remaining_length, if_pos (by omega)]
  simp [Nat.add_comm]

theorem encode_len_small (n : Nat) (h : n ≤ 127) :
    (encode_remaining_length n).length = 1 := by
  rw [encode_remaining_length, if_neg (by omega)]
  rfl

/-- Claim C2: for every n in [0, 2^28−1], decoding the byte stream produced
by `encode_remaining_length n` yields n back (consuming the whole stream),
and the encoding is minimal: 1 byte for n ≤ 127, 2 up to 16383, 3 up to
2097151, 4 up to 268435455. -/
theorem c2_length_codec_roundtrip_and_minimality (n : Nat) (h : n < 268435456) :
    decode_remaining_length [encode_remaining_length n] = some (n, []) ∧
    (encode_remaining_length n).length =
      (if n ≤ 127 then 1 else if n ≤ 16383 then 2 else if n ≤ 2097151 then 3 else 4) := by
  constructor
  · have hrt := decodeRL_encodeRL n 1 0 []
    rw [chunkCons_of_ne_nil (encode_remaining_length_ne_nil n)] at hrt
    simpa [decode_remaining_length] using hrt
  · by_cases h1 : n ≤ 127
    · rw [if_pos h1]
      exact encode_len_small n h1
    · rw [if_neg h1]
      by_cases h2 : n ≤ 16383
      · rw [if_pos h2, encode_len_step n (by omega), encode_len_small (n / 128) (by omega)]
      · rw [if_neg h2]
        by_cases h3 : n ≤ 2097151
        · rw [if_pos h3, encode_len_step n (by omega), encode_len_step (n / 128) (by omega),
            encode_len_small (n / 128 / 128) (by omega)]
        · rw [if_neg h3, encode_len_step n (by omega), encode_len_step (n / 128) (by omega),
            encode_len_step (n / 128 / 128) (by omega),
            encode_len_small (n / 128 / 128 / 128) (by omega)]

/-- Witness for C2 at n = 268435455 (the largest valid length). -/
theorem c2_witness :
    268435455 < 268435456 ∧
    (decode_remaining_length [encode_remaining_length 268435455] = some (268435455, []) ∧
      (encode_remaining_length 268435455).length =
        (if 268435455 ≤ 127 then 1 else if 268435455 ≤ 16383 then 2
          else if 268435455 ≤ 2097151 then 3 else 4)) :=
  ⟨by norm_num, c2_length_codec_roundtrip_and_minimality 268435455 (by norm_num)⟩

/-! ## Forwarding helpers -/

theorem forward_publish_f_fst (fail : Nat → Bool) (subs : List (String × List Nat))
    (T : String) (payload : List Nat) (flags : Nat) :
    (forward_publish_f fail subs T payload flags).map Prod.fst
      = (matching_subscribers subs T).filter (fun c => !(fail c)) := by
  simp [forward_publish_f, Function.comp_def]

theorem forward_publish_fst (subs : List (String × List Nat))
    (T : String) (payload : List Nat) (flags : Nat) :
    (forward_publish subs T payload flags).map Prod.fst = matching_subscribers subs T := by
  rw [forward_publish, forward_publish_f_fst]
  simp

theorem nodup_matching (subs : List (String × List Nat)) (T : String) :
    (matching_subscribers subs T).Nodup := List.nodup_dedup _

theorem mem_matching {subs : List (String × List Nat)} {T F : String}
    {conns : List Nat} {c : Nat}
    (h1 : (F, conns) ∈ subs) (h2 : c ∈ conns) (h3 : topic_matches T F = true) :
    c ∈ matching_subscribers subs T := by
  unfold matching_subscribers
  rw [List.mem_dedup, List.mem_append]
  right
  exact List.mem_flatMap.mpr ⟨(F, conns), List.mem_filter.mpr ⟨h1, h3⟩, h2⟩

theorem mem_matching_exists {subs : List (String × List Nat)} {T : String} {c : Nat}
    (h : c ∈ matching_subscribers subs T) : ∃ e ∈ subs, c ∈ e.2 := by
  unfold matching_subscribers at h
  rw [List.mem_dedup, List.mem_append] at h
  rcases h with h | h <;>
  · obtain ⟨e, he, hc⟩ := List.mem_flatMap.mp h
    exact ⟨e, (List.mem_filter.mp he).1, hc⟩

theorem count_matching_one {subs : List (String × List Nat)} {T F : String}
    {conns : List Nat} {c : Nat} (payload : List Nat) (flags : Nat)
    (h1 : (F, conns) ∈ subs) (h2 : c ∈ conns) (h3 : topic_matches T F = true) :
    ((forward_publish subs T payload flags).map Prod.fst).count c = 1 := by
  rw [forward_publish_fst]
  exact List.count_eq_one_of_mem (nodup_matching subs T) (mem_matching h1 h2 h3)

/-! ## C4 — exactly-once delivery, unmodified frame -/

/-- Claim C4: for every publish to topic T, each connection receives at most
one copy of the forwarded frame even when subscribed under several matching
filters or duplicate filters (unconditional first conjunct); a connection
subscribed under a filter that matches T receives exactly one forwarded
PUBLISH (second conjunct); and every forwarded frame is the one carrying
topic T's bytes and the publisher's payload bytes unmodified (third
conjunct). -/
theorem c4_exactly_once_delivery (subs : List (String × List Nat)) (T : String)
    (payload : List Nat) (flags : Nat) (c : Nat) :
    ((forward_publish subs T payload flags).map Prod.fst).count c ≤ 1 ∧
    (∀ F conns, (F, conns) ∈ subs → c ∈ conns → topic_matches T F = true →
      ((forward_publish subs T payload flags).map Prod.fst).count c = 1) ∧
    (forward_publish subs T payload flags).all
      (fun p => decide (p.2 = publishPacket flags T payload)) = true := by
  refine ⟨?_, ?_, ?_⟩
  · rw [forward_publish_fst]
    exact List.nodup_iff_count_le_one.mp (nodup_matching subs T) c
  · intro F conns h1 h2 h3
    exact count_matching_one payload flags h1 h2 h3
  · rw [List.all_eq_true]
    intro p hp
    rw [forward_publish, forward_publish_f] at hp
    simp only [List.mem_map] at hp
    obtain ⟨a, ha, rfl⟩ := hp
    simp

/-- Witness for C4: a connection subscribed under the two overlapping
matching filters `a/+` and `a/#` receives exactly one copy of a publish to
`a/b`. -/
theorem c4_witness :
    ((forward_publish [("a/+", [3]), ("a/#", [3])] "a/b" [9] 0x30).map Prod.fst).count 3 ≤ 1 ∧
    ((forward_publish [("a/+", [3]), ("a/#", [3])] "a/b" [9] 0x30).map Prod.fst).count 3 = 1 ∧
    (forward_publish [("a/+", [3]), ("a/#", [3])] "a/b" [9] 0x30).all
      (fun p => decide (p.2 = publishPacket 0x30 "a/b" [9])) = true :=
  ⟨(c4_exactly_once_delivery [("a/+", [3]), ("a/#", [3])] "a/b" [9] 0x30 3).1,
   (c4_exactly_once_delivery [("a/+", [3]), ("a/#", [3])] "a/b" [9] 0x30 3).2.1
     "a/+" [3] (by decide) (by decide) (by decide),
   (c4_exactly_once_delivery [("a/+", [3]), ("a/#", [3])] "a/b" [9] 0x30 3).2.2⟩

/-! ## C6 — lock scope during forwarding -/

/-- Claim C6 counterexample: in the source, `with self.lock:` encloses the
whole of `forward_publish`, including the send loop, so with one matching
subscriber the trace contains a send between acquire and release — the
claim "the lock is not held while the forwarded frame is written" is false
(its formalization `sendsOutsideLock` evaluates to `false`, not `true`). -/
theorem c6_counterexample :
    sendsOutsideLock (forward_publish_events [("a", [1])] "a" [] 0x30) false = false := by
  have h : forward_publish [("a", [1])] "a" [] 0x30
      = [(1, publishPacket 0x30 "a" [])] := by
    simp +decide [forward_publish, forward_publish_f, matching_subscribers, topic_matches]
  rw [forward_publish_events, h]
  rfl

theorem sendsDuringLock_sends_then_release (l : List (Nat × List Nat)) :
    sendsDuringLock (l.map (fun p => LockEv.send p.1 p.2) ++ [LockEv.release]) true = true := by
  induction l with
  | nil => rfl
  | cons a l ih => simpa [sendsDuringLock] using ih

/-- Claim C6 (amended): the Subscription Registry lock is held for the whole
of `forward_publish` — the matching-set computation, the frame construction
AND every write to a subscriber's socket happen inside the lock (every send
event of the trace occurs while the lock is held). -/
theorem c6_sends_happen_under_lock (subs : List (String × List Nat)) (T : String)
    (payload : List Nat) (flags : Nat) :
    sendsDuringLock (forward_publish_events subs T payload flags) false = true := by
  rw [forward_publish_events]
  simpa [sendsDuringLock] using
    sendsDuringLock_sends_then_release (forward_publish subs T payload flags)

/-! ## Wire-format parsing helpers -/

theorem parseU16_u16be (n : Nat) (rest : List Nat) :
    parseU16 (u16be n ++ rest) = some n := by
  simp [u16be, parseU16]
  omega

theorem drop2_u16be (n : Nat) (rest : List Nat) :
    (u16be n ++ rest).drop 2 = rest := by
  simp [u16be]

theorem drop_len_append (pre Y : List Nat) (k : Nat) :
    (pre ++ Y).drop (pre.length + k) = Y.drop k := by
  induction pre with
  | nil => simp
  | cons a l ih => simp [Nat.succ_add, ih]

theorem drop_two_cons (a b : Nat) (l : List Nat) (x : Nat) :
    (a :: b :: l).drop (x + 2) = l.drop x := rfl

theorem dropA (m : Nat) (pre Y : List Nat) :
    (u16be m ++ (pre ++ Y)).drop (2 + pre.length) = Y := by
  rw [Nat.add_comm 2 pre.length]
  show ((m / 256) :: (m % 256) :: (pre ++ Y)).drop (pre.length + 2) = Y
  rw [drop_two_cons]
  exact List.drop_left pre Y

theorem dropB (m k : Nat) (pre Y : List Nat) :
    (u16be m ++ (pre ++ (u16be k ++ Y))).drop (2 + pre.length + 2) = Y := by
  rw [show 2 + pre.length + 2 = (pre.length + 2) + 2 from by omega]
  show ((m / 256) :: (m % 256) :: (pre ++ ((k / 256) :: (k % 256) :: Y))).drop
      ((pre.length + 2) + 2) = Y
  rw [drop_two_cons, drop_len_append]
  rfl

/-- Behaviour of `handle_publish` on a well-formed QoS-positive PUBLISH
payload `topic_len ++ topic_bytes ++ packet_id ++ payload`: it forwards to
the matching subscribers and answers PUBACK exactly when the parsed QoS is 1
and the identifier is nonzero. -/
theorem handle_publish_f_wellformed (fail : Nat → Bool) (subs : List (String × List Nat))
    (conn flags : Nat) (T : String) (K : Nat) (payload : List Nat)
    (hq : (flags &&& 0x06) >>> 1 = 1)
    (hT : utf8Decode (stringBytes T) = some T) :
    handle_publish_f fail subs conn flags
        (u16be (stringBytes T).length ++ stringBytes T ++ u16be K ++ payload)
      = some (forward_publish_f fail subs T payload flags
          ++ if K ≠ 0 then [(conn, pubackBytes K)] else []) := by
  simp only [handle_publish_f, List.append_assoc, parseU16_u16be, drop2_u16be,
    List.take_left, hT, hq, dropA, dropB]
  by_cases hK : K = 0 <;> simp [hK]

/-! ## C9 — a failing subscriber write is isolated -/

theorem count_forward_f_of_ok (fail : Nat → Bool) (subs : List (String × List Nat))
    (T : String) (payload : List Nat) (flags : Nat) (c : Nat) (hc : fail c = false) :
    ((forward_publish_f fail subs T payload flags).map Prod.fst).count c
      = ((forward_publish subs T payload flags).map Prod.fst).count c := by
  rw [forward_publish_f_fst, forward_publish_fst]
  exact List.count_filter (by simp [hc])

/-- Claim C9: whatever set of subscriber sockets fail their `send` during
forwarding, the broker does not crash (the handler still returns normally),
the publisher still receives its QoS-1 PUBACK, and every subscriber whose
socket does not fail receives exactly the deliveries it would have received
with no failures at all. -/
theorem c9_write_failure_isolated (fail : Nat → Bool) (subs : List (String × List Nat))
    (conn flags : Nat) (T : String) (K : Nat) (payload : List Nat) (c : Nat)
    (hq : (flags &&& 0x06) >>> 1 = 1)
    (hT : utf8Decode (stringBytes T) = some T)
    (hK0 : K ≠ 0)
    (hc : fail c = false) :
    handle_publish_f fail subs conn flags
        (u16be (stringBytes T).length ++ stringBytes T ++ u16be K ++ payload)
      = some (forward_publish_f fail subs T payload flags ++ [(conn, pubackBytes K)]) ∧
    ((forward_publish_f fail subs T payload flags).map Prod.fst).count c
      = ((forward_publish subs T payload flags).map Prod.fst).count c := by
  constructor
  · rw [handle_publish_f_wellformed fail subs conn flags T K payload hq hT]
    simp [hK0]
  · exact count_forward_f_of_ok fail subs T payload flags c hc

/-- Witness for C9: subscriber 6's socket fails, subscriber 5 still gets its
copy and the publisher still gets PUBACK(1). -/
theorem c9_witness :
    handle_publish_f (fun c => c == 6) [("a", [5, 6])] 0 0x32
        (u16be (stringBytes "a").length ++ stringBytes "a" ++ u16be 1 ++ [7])
      = some (forward_publish_f (fun c => c == 6) [("a", [5, 6])] "a" [7] 0x32
          ++ [(0, pubackBytes 1)]) ∧
    ((forward_publish_f (fun c => c == 6) [("a", [5, 6])] "a" [7] 0x32).map Prod.fst).count 5
      = ((forward_publish [("a", [5, 6])] "a" [7] 0x32).map Prod.fst).count 5 :=
  c9_write_failure_isolated (fun c => c == 6) [("a", [5, 6])] 0 0x32 "a" 1 [7] 5
    (by decide) (by decide) (by decide) (by decide)

/-! ## C3 — QoS-1 PUBACK -/

/-- Claim C3 counterexample: a well-formed QoS-1 PUBLISH (flags 0x32)
carrying topic `a` and packet identifier K = 0 produces NO PUBACK at all
(the handler's output is empty — `if qos == 1 and msg_id:` is Python
truthiness, and `msg_id = 0` is falsy), refuting "exactly one PUBACK
containing identifier K for any K in [0, 65535]" at K = 0. -/
theorem c3_counterexample :
    handle_publish [] 0 0x32 [0, 1, 97, 0, 0] = some [] ∧
    handle_publish [] 0 0x32 [0, 1, 97, 0, 0] ≠ some [(0, pubackBytes 0)] := by
  have hdata : ([0, 1, 97, 0, 0] : List Nat)
      = u16be (stringBytes "a").length ++ stringBytes "a" ++ u16be 0 ++ [] := by decide
  have hmain : handle_publish [] 0 0x32 [0, 1, 97, 0, 0] = some [] := by
    rw [hdata, handle_publish,
      handle_publish_f_wellformed _ _ _ _ _ _ _ (by decide) (by decide)]
    simp [forward_publish_f, matching_subscribers]
  exact ⟨hmain, by rw [hmain]; simp⟩

/-- Claim C3 (amended): for every well-formed PUBLISH whose header flags
encode QoS = 1 and whose payload carries a packet identifier K in
[1, 65535] — not [0, 65535]: identifier 0 yields no PUBACK — handling the
packet sends exactly one PUBACK containing K back to the publishing
connection, in addition to one forwarded copy to each matching
subscriber. -/
theorem c3_qos1_puback_for_nonzero_identifier (subs : List (String × List Nat))
    (conn flags : Nat) (T : String) (K : Nat) (payload : List Nat)
    (hflags : flags &&& 0xF0 = 0x30)
    (hq : (flags &&& 0x06) >>> 1 = 1)
    (hT : utf8Decode (stringBytes T) = some T)
    (hK1 : 1 ≤ K) (hK2 : K < 65536) :
    handle_publish subs conn flags
        (u16be (stringBytes T).length ++ stringBytes T ++ u16be K ++ payload)
      = some (forward_publish subs T payload flags ++ [(conn, pubackBytes K)]) ∧
    (forward_publish subs T payload flags ++ [(conn, pubackBytes K)]).countP
      (fun p => decide (p = (conn, pubackBytes K))) = 1 ∧
    (∀ c F conns, (F, conns) ∈ subs → c ∈ conns → topic_matches T F = true →
      ((forward_publish subs T payload flags).map Prod.fst).count c = 1) := by
  have hne : flags ≠ 0x40 := by
    intro h
    rw [h] at hflags
    exact absurd hflags (by decide)
  refine ⟨?_, ?_, ?_⟩
  · rw [handle_publish,
      handle_publish_f_wellformed _ _ _ _ _ _ _ hq hT]
    have : K ≠ 0 := by omega
    simp [this, forward_publish]
  · rw [List.countP_append]
    have h0 : (forward_publish subs T payload flags).countP
        (fun p => decide (p = (conn, pubackBytes K))) = 0 := by
      rw [List.countP_eq_zero]
      intro a ha hp
      rw [forward_publish, forward_publish_f] at ha
      simp only [List.mem_map] at ha
      obtain ⟨x, hx, rfl⟩ := ha
      simp only [decide_eq_true_eq, Prod.mk.injEq] at hp
      have hpk := hp.2
      rw [publishPacket, pubackBytes] at hpk
      have : flags = 0x40 := by
        have := congrArg (fun l => l.head?) hpk
        simpa using this
      exact hne this
    rw [h0]
    simp
  · intro c F conns h1 h2 h3
    exact count_matching_one payload flags h1 h2 h3

/-- Witness for the amended C3 at topic `a`, identifier 1, one subscriber. -/
theorem c3_witness :
    handle_publish [("a", [5])] 0 0x32
        (u16be (stringBytes "a").length ++ stringBytes "a" ++ u16be 1 ++ [7])
      = some (forward_publish [("a", [5])] "a" [7] 0x32 ++ [(0, pubackBytes 1)]) ∧
    (forward_publish [("a", [5])] "a" [7] 0x32 ++ [(0, pubackBytes 1)]).countP
      (fun p => decide (p = (0, pubackBytes 1))) = 1 ∧
    ((forward_publish [("a", [5])] "a" [7] 0x32).map Prod.fst).count 5 = 1 :=
  ⟨(c3_qos1_puback_for_nonzero_identifier [("a", [5])] 0 0x32 "a" 1 [7] (by decide)
      (by decide) (by decide) (by decide) (by decide)).1,
   (c3_qos1_puback_for_nonzero_identifier [("a", [5])] 0 0x32 "a" 1 [7] (by decide)
      (by decide) (by decide) (by decide) (by decide)).2.1,
   (c3_qos1_puback_for_nonzero_identifier [("a", [5])] 0 0x32 "a" 1 [7] (by decide)
      (by decide) (by decide) (by decide) (by decide)).2.2 5 "a" [5]
     (by decide) (by decide) (by decide)⟩

/-! ## C10 — the forwarded frame strips the identifier, reuses the flags -/

/-- Claim C10: for a PUBLISH received with QoS 1, the handler forwards a
frame whose first byte is the publisher's original flags byte (QoS bits
included) and whose variable part is exactly the 2-byte topic length, the
topic bytes and the payload bytes — the parsed packet identifier K appears
nowhere in it (it is dropped when the payload is re-sliced after the
identifier field). -/
theorem c10_forwarded_frame_layout (subs : List (String × List Nat))
    (conn flags : Nat) (T : String) (K : Nat) (payload : List Nat)
    (hq : (flags &&& 0x06) >>> 1 = 1)
    (hT : utf8Decode (stringBytes T) = some T) :
    handle_publish subs conn flags
        (u16be (stringBytes T).length ++ stringBytes T ++ u16be K ++ payload)
      = some (forward_publish subs T payload flags
          ++ if K ≠ 0 then [(conn, pubackBytes K)] else []) ∧
    (forward_publish subs T payload flags).all
      (fun p => decide (p.2 = flags :: (encode_remaining_length
          (2 + (stringBytes T).length + payload.length)
        ++ u16be (stringBytes T).length ++ stringBytes T ++ payload))) = true := by
  constructor
  · rw [handle_publish, handle_publish_f_wellformed _ _ _ _ _ _ _ hq hT]
    rw [forward_publish]
  · rw [List.all_eq_true]
    intro p hp
    rw [forward_publish, forward_publish_f] at hp
    simp only [List.mem_map] at hp
    obtain ⟨a, ha, rfl⟩ := hp
    simp [publishPacket]

/-- Witness for C10 at topic `a`, identifier 3, payload `[9]`. -/
theorem c10_witness :
    (handle_publish [("a", [5])] 0 0x32
        (u16be (stringBytes "a").length ++ stringBytes "a" ++ u16be 3 ++ [9])
      = some (forward_publish [("a", [5])] "a" [9] 0x32
          ++ if (3 : Nat) ≠ 0 then [(0, pubackBytes 3)] else [])) ∧
    (forward_publish [("a", [5])] "a" [9] 0x32).all
      (fun p => decide (p.2 = 0x32 :: (encode_remaining_length
          (2 + (stringBytes "a").length + ([9] : List Nat).length)
        ++ u16be (stringBytes "a").length ++ stringBytes "a" ++ [9]))) = true :=
  c10_forwarded_frame_layout [("a", [5])] 0 0x32 "a" 3 [9] (by decide) (by decide)

/-! ## C5 — cleanup removes the connection everywhere -/

/-- Claim C5: after `cleanup_client` runs for a connection, that connection
is a member of no filter's subscriber set, has no entry in the connection
table, and any subsequent forward of a matching publish delivers zero
copies to it. -/
theorem c5_cleanup_removes_connection (st : BrokerState) (conn : Nat) (T : String)
    (payload : List Nat) (flags : Nat) :
    ((cleanup_client st conn).subscriptions.all (fun e => !(e.2.contains conn))) = true ∧
    ((cleanup_client st conn).clients.all (fun e => !(e.1 == conn))) = true ∧
    ((forward_publish (cleanup_client st conn).subscriptions T payload flags).map
        Prod.fst).count conn = 0 := by
  refine ⟨?_, ?_, ?_⟩
  · rw [List.all_eq_true]
    intro e he
    rw [cleanup_client] at he
    simp only [List.mem_map] at he
    obtain ⟨e0, he0, rfl⟩ := he
    cases hcontains : (e0.2.filter (fun c => !(c == conn))).contains conn
    · simp
    · exfalso
      have hmem : conn ∈ e0.2.filter (fun c => !(c == conn)) := List.elem_iff.mp hcontains
      have := (List.mem_filter.mp hmem).2
      simp at this
  · rw [List.all_eq_true]
    intro e he
    rw [cleanup_client] at he
    have := (List.mem_filter.mp he).2
    simpa using this
  · rw [forward_publish_fst]
    rw [List.count_eq_zero]
    intro hmem
    obtain ⟨e, he, hc⟩ := mem_matching_exists hmem
    rw [cleanup_client] at he
    simp only [List.mem_map] at he
    obtain ⟨e0, he0, rfl⟩ := he
    have := (List.mem_filter.mp hc).2
    simp at this

/-! ## C7 — unknown packet type while READY -/

/-- Claim C7 counterexample: a packet of type 0x50 (not one of the handled
types) is dispatched with state unchanged, no output, and the read loop
CONTINUING (`true`) — the connection stays READY; it is neither closed
(`false`, as DISCONNECT produces) nor treated as an error (`none`), refuting
"moves that connection to CLOSED, handled identically to a transport
error". -/
theorem c7_counterexample :
    dispatch_packet ⟨[], []⟩ 0 0x50 [] = some (⟨[], []⟩, [], true) ∧
    dispatch_packet ⟨[], []⟩ 0 0x50 [] ≠ some (⟨[], []⟩, [], false) := by
  have h : dispatch_packet ⟨[], []⟩ 0 0x50 [] = some (⟨[], []⟩, [], true) := by
    simp +decide [dispatch_packet, CONNECT, PUBLISH, SUBSCRIBE, PINGREQ, DISCONNECT]
  exact ⟨h, by rw [h]; simp⟩

/-- Claim C7 (amended): while READY, a packet whose type is none of CONNECT,
PUBLISH, SUBSCRIBE, PINGREQ or DISCONNECT is silently ignored — the dispatch
falls through every `elif` arm, so the state is unchanged, nothing is sent,
and the read loop continues (the connection stays READY rather than moving
to CLOSED). -/
theorem c7_unknown_packet_type_ignored (st : BrokerState) (conn first_byte : Nat)
    (data : List Nat)
    (h1 : first_byte &&& 0xF0 ≠ CONNECT) (h2 : first_byte &&& 0xF0 ≠ PUBLISH)
    (h3 : first_byte &&& 0xF0 ≠ SUBSCRIBE) (h4 : first_byte &&& 0xF0 ≠ PINGREQ)
    (h5 : first_byte &&& 0xF0 ≠ DISCONNECT) :
    dispatch_packet st conn first_byte data = some (st, [], true) := by
  simp [dispatch_packet, h1, h2, h3, h4, h5]

/-- Witness for the amended C7: type nibble 0x50 on a broker with live
state. -/
theorem c7_witness :
    dispatch_packet ⟨[(1, "p")], [("a", [1])]⟩ 1 0x50 [1, 2, 3]
      = some (⟨[(1, "p")], [("a", [1])]⟩, [], true) :=
  c7_unknown_packet_type_ignored ⟨[(1, "p")], [("a", [1])]⟩ 1 0x50 [1, 2, 3]
    (by decide) (by decide) (by decide) (by decide) (by decide)

/-! ## C8 — the packet reader and short reads -/

/-- Claim C8 counterexample: after the header byte 0x30 and remaining length
5, the stream's next chunk holds only 2 bytes; the single
`recv(remaining_length)` returns them and the reader dispatches the
2-byte partial payload as packet data — the read is not "exactly that many
bytes" and the short read is not fatal, refuting the claim. -/
theorem c8_counterexample :
    read_packet [[0x30, 5], [1, 2]] = ReadOutcome.packet 0x30 [1, 2] [] ∧
    ([1, 2] : List Nat).length ≠ 5 := by
  constructor
  · simp +decide [read_packet, recv1, recvN, decode_remaining_length, decodeRLAux]
  · decide

/-- Claim C8 (amended): the reader reads exactly one fixed-header byte and
decodes the remaining length (a stream that ends inside the length is fatal
to the connection: `err`); for the payload it issues a SINGLE
`recv(remaining_length)` and dispatches whatever that recv returns — exactly
`remaining_length` bytes when the next chunk has at least that many, but a
shorter chunk yields a dispatched partial payload rather than an error. -/
theorem c8_reader_single_recv (first_byte n : Nat) (c : List Nat)
    (rest : List (List Nat)) (h0 : 0 < n) (h128 : n < 128) :
    read_packet ([first_byte, n] :: c :: rest)
      = ReadOutcome.packet first_byte (c.take n)
          (if (c.drop n).isEmpty then rest else (c.drop n) :: rest) ∧
    (c.take n).length = min n c.length ∧
    read_packet [[first_byte]] = ReadOutcome.err := by
  refine ⟨?_, List.length_take n c, ?_⟩
  · have e1 : decode_remaining_length ([n] :: c :: rest) = some (n, c :: rest) := by
      rw [decode_remaining_length, decodeRLAux]
      simp only [recv1, List.isEmpty_nil, if_true]
      rw [land127_of_lt n h128, land128_of_lt n h128]
      simp
    rw [read_packet]
    simp only [recv1, List.isEmpty_cons, Bool.false_eq_true, if_false]
    rw [e1]
    simp [recvN, h0]
  · rw [read_packet]
    simp only [recv1, List.isEmpty_nil, if_true]
    rw [decode_remaining_length, decodeRLAux]
    simp [recv1]

/-- Witness for the amended C8: remaining length 5 against a 2-byte chunk. -/
theorem c8_witness :
    read_packet ([0x31, 5] :: [1, 2] :: [])
      = ReadOutcome.packet 0x31 (([1, 2] : List Nat).take 5)
          (if (([1, 2] : List Nat).drop 5).isEmpty then ([] : List (List Nat))
            else (([1, 2] : List Nat).drop 5) :: []) ∧
    (([1, 2] : List Nat).take 5).length = min 5 ([1, 2] : List Nat).length ∧
    read_packet [[0x31]] = ReadOutcome.err :=
  c8_reader_single_recv 0x31 5 [1, 2] [] (by decide) (by decide)
